import Mathlib

/-!
Shallow embedding of the CareerSuite.AI job-tracker email-processing core
(repository Frankwerd/Career_Suite_AI_v9).

The definitions below translate, item by item, the configuration constants of
`Config.gs` (the active first block of `src/Config.js`), the record-reconciliation
and queue-processing logic of `processJobApplicationEmails` in `src/Main.js`
(lines 434-618), and the Gemini oracle wrapper `callGemini_forApplicationDetails`
of `GeminiService.gs` (`src/unnamed/part_003`).

Modelling conventions:
* JavaScript strings stay `String`; `String(x).trim()` becomes `jsTrim`,
  `toLowerCase()` becomes `jsLower` (list-based so that proofs can evaluate).
* Dates are `Nat` timestamps (all stored dates are valid `Date` objects, so the
  `instanceof Date` guards of lines 576-577 are always satisfied).
* `STATUS_HIERARCHY[s] ?? d` becomes `(STATUS_HIERARCHY s).getD d`.
* The spreadsheet is a `List Row`; sheet row number of list index `i` is `i + 2`
  (row 1 is the header row).
* The in-memory company index `existingDataCache` is an association list from
  lower-cased company key to the list of cached row summaries, in insertion
  order, exactly as the JS object/array code maintains it.
-/

/-- ASCII lower-casing of one character, the effect of JavaScript
`toLowerCase()` on the ASCII strings this system compares. -/
def lowerChar (c : Char) : Char :=
  if 'A' ≤ c ∧ c ≤ 'Z' then Char.ofNat (c.toNat + 32) else c

/-- JavaScript `s.toLowerCase()`. -/
def jsLower (s : String) : String := ⟨s.data.map lowerChar⟩

/-- Whitespace recognised by JavaScript `trim()` (the characters that occur in
this system's data). -/
def isJsSpace (c : Char) : Bool := c = ' ' ∨ c = '\t' ∨ c = '\n' ∨ c = '\r'

/-- JavaScript `s.trim()`. -/
def jsTrim (s : String) : String :=
  ⟨((s.data.dropWhile isJsSpace).reverse.dropWhile isJsSpace).reverse⟩

/-- `MANUAL_REVIEW_NEEDED` of Config.gs line 57. -/
def MANUAL_REVIEW_NEEDED : String := "N/A - Manual Review"

/-- `DEFAULT_STATUS` of Config.gs line 57. -/
def DEFAULT_STATUS : String := "Applied"

/-- `REJECTED_STATUS` of Config.gs line 57. -/
def REJECTED_STATUS : String := "Rejected"

/-- `OFFER_STATUS` of Config.gs line 57. -/
def OFFER_STATUS : String := "Offer Received"

/-- `ACCEPTED_STATUS` of Config.gs line 57. -/
def ACCEPTED_STATUS : String := "Offer Accepted"

/-- `INTERVIEW_STATUS` of Config.gs line 57. -/
def INTERVIEW_STATUS : String := "Interview Scheduled"

/-- `ASSESSMENT_STATUS` of Config.gs line 57. -/
def ASSESSMENT_STATUS : String := "Assessment/Screening"

/-- `APPLICATION_VIEWED_STATUS` of Config.gs line 57. -/
def APPLICATION_VIEWED_STATUS : String := "Application Viewed"

/-- `DEFAULT_PLATFORM` of Config.gs line 57. -/
def DEFAULT_PLATFORM : String := "Other"

/-- `STATUS_HIERARCHY` of Config.gs line 58, as a partial map: `none` plays the
role of JavaScript `undefined` for a key that is absent from the object. -/
def STATUS_HIERARCHY (s : String) : Option Int :=
  if s = MANUAL_REVIEW_NEEDED then some (-1)
  else if s = "Update/Other" then some 0
  else if s = DEFAULT_STATUS then some 1
  else if s = APPLICATION_VIEWED_STATUS then some 2
  else if s = ASSESSMENT_STATUS then some 3
  else if s = INTERVIEW_STATUS then some 4
  else if s = OFFER_STATUS then some 5
  else if s = REJECTED_STATUS then some 5
  else if s = ACCEPTED_STATUS then some 6
  else none

/-- One data row of the "Applications" sheet, with the twelve columns of
`APP_TRACKER_SHEET_HEADERS` (Config.gs lines 51-53). -/
structure Row where
  processedTimestamp : Nat
  emailDate : Nat
  platform : String
  company : String
  jobTitle : String
  status : String
  peakStatus : String
  lastUpdateDate : Nat
  emailSubject : String
  emailLink : String
  emailId : String
  notes : String
deriving Repr, DecidableEq

/-- A queued message together with the fields the extraction stage
(Gemini or regex fallback) produced for it: `company`/`jobTitle` are
`MANUAL_REVIEW_NEEDED` when unresolved, `applicationStatus` is `none` when the
status parser returned null (Main.js lines 501-559). -/
structure ExtractedMsg where
  msgId : String
  threadId : String
  emailDate : Nat
  emailSubject : String
  platform : String
  company : String
  jobTitle : String
  applicationStatus : Option String
deriving Repr, DecidableEq

/-- The permalink built at Main.js line 514. -/
def emailPermaLink (msgId : String) : String :=
  "https://mail.google.com/mail/u/0/#inbox/" ++ msgId

/-- `finalStatusToSet = applicationStatus || DEFAULT_STATUS` (Main.js line 559);
both null and the empty string are falsy. -/
def finalStatusToSet (applicationStatus : Option String) : String :=
  match applicationStatus with
  | none => DEFAULT_STATUS
  | some s => if s = "" then DEFAULT_STATUS else s

/-- `statInSheet = String(row[STATUS_COL-1]).trim() || DEFAULT_STATUS`
(Main.js line 581). -/
def statInSheet (stored : String) : String :=
  if jsTrim stored = "" then DEFAULT_STATUS else jsTrim stored

/-- The status-overwrite decision of Main.js lines 581-582: the block is guarded
by `statInSheet !== ACCEPTED_STATUS || finalStatusToSet === ACCEPTED_STATUS`,
and inside it the new status is written when its rank (default 0) is at least
the current rank, or unconditionally when it is Rejected or Offer. -/
def newStatus (stored fin : String) : String :=
  let statIn := statInSheet stored
  if statIn ≠ ACCEPTED_STATUS ∨ fin = ACCEPTED_STATUS then
    let curRank := (STATUS_HIERARCHY statIn).getD 0
    let newRank := (STATUS_HIERARCHY fin).getD 0
    if newRank ≥ curRank ∨ fin = REJECTED_STATUS ∨ fin = OFFER_STATUS then fin
    else stored
  else stored

/-- The `exclPeak` set of Main.js line 584 (identical to `exclPeakInit` of
line 596). -/
def isPeakExcluded (s : String) : Bool :=
  s == REJECTED_STATUS || s == ACCEPTED_STATUS || s == MANUAL_REVIEW_NEEDED ||
    s == "Update/Other"

/-- Rank lookup with the `?? -2` default used in the peak comparison
(Main.js line 584). -/
def peakRank (s : String) : Int :=
  (STATUS_HIERARCHY s).getD (-2)

/-- `STATUS_HIERARCHY[statAfterUpd] > STATUS_HIERARCHY[DEFAULT_STATUS]` of
Main.js line 585: a raw JS comparison that is false when either lookup is
`undefined`. -/
def rankGtApplied (s : String) : Bool :=
  match STATUS_HIERARCHY s, STATUS_HIERARCHY DEFAULT_STATUS with
  | some a, some b => a > b
  | _, _ => false

/-- The peak-status computation of Main.js lines 583-586, as a function of the
stored peak (after the cache/sheet merge of line 583) and of the status value
the row holds after the status update (`statAfterUpd`). -/
def computePeak (peakStored statAfterUpd : String) : String :=
  let peakStat :=
    if peakStored = "" ∨ peakStored = MANUAL_REVIEW_NEEDED then DEFAULT_STATUS
    else peakStored
  if peakRank statAfterUpd > peakRank peakStat ∧ isPeakExcluded statAfterUpd = false then
    statAfterUpd
  else if peakStat = DEFAULT_STATUS ∧ isPeakExcluded statAfterUpd = false ∧
      rankGtApplied statAfterUpd = true then
    statAfterUpd
  else peakStat

/-- `existingRowInfoToUpdate.peakStatus || String(row[PEAK_STATUS_COL-1]).trim()`
(Main.js line 583): the cached peak wins unless it is the empty string. -/
def storedPeak (cachePeak rowPeak : String) : String :=
  if cachePeak = "" then jsTrim rowPeak else cachePeak

/-- One element of an `existingDataCache[companyLower]` array: the summary
pushed at preload (Main.js line 453) and kept in sync after writes
(lines 592 and 603). -/
structure CacheEntry where
  row : Nat
  emailId : String
  company : String
  title : String
  status : String
  peakStatus : String
deriving Repr, DecidableEq

/-- `existingDataCache`: lower-cased company key to cached row summaries, as an
association list in insertion order. -/
abbrev Cache := List (String × List CacheEntry)

/-- Look the key up (`existingDataCache[k]`), `none` when the property is
absent. -/
def cacheFind (c : Cache) (k : String) : Option (List CacheEntry) :=
  (c.find? (fun p => p.1 == k)).map (fun p => p.2)

/-- Truthiness of `existingDataCache[k]` as used in the guards of Main.js
lines 563 and 592 (an array, even empty, is truthy; an absent key is not). -/
def cacheHas (c : Cache) (k : String) : Bool := (cacheFind c k).isSome

/-- The entry list for a key, empty when absent. -/
def cacheGet (c : Cache) (k : String) : List CacheEntry := (cacheFind c k).getD []

/-- `if(!existingDataCache[k]) existingDataCache[k]=[]; existingDataCache[k].push(e)`
(Main.js lines 453 and 603). -/
def cachePush (c : Cache) (k : String) (e : CacheEntry) : Cache :=
  if cacheHas c k then
    c.map (fun p => if p.1 == k then (p.1, p.2 ++ [e]) else p)
  else c ++ [(k, [e])]

/-- The cache refresh after an update write (Main.js line 592): map over the
entries of key `k`, replacing the entry whose row number matches. -/
def cacheUpdateRowEntries (c : Cache) (k : String) (rowNum : Nat)
    (upd : CacheEntry → CacheEntry) : Cache :=
  c.map (fun p =>
    if p.1 == k then (p.1, p.2.map (fun e => if e.row == rowNum then upd e else e))
    else p)

/-- `companyCacheKey` of Main.js line 560. -/
def companyCacheKey (companyName msgId : String) : String :=
  if companyName ≠ MANUAL_REVIEW_NEEDED then jsLower companyName
  else "_manual_review_placeholder_" ++ msgId

/-- `potentialMatches.reduce((latest,current) => current.row > latest.row ?
current : latest, potentialMatches[0])` (Main.js line 566). -/
def reduceLatest : List CacheEntry → Option CacheEntry
  | [] => none
  | e :: es => some (es.foldl (fun latest cur => if cur.row > latest.row then cur else latest) e)

/-- The row-matching logic of Main.js lines 563-567: only for a non-sentinel
company whose lower-cased name is a cache key; prefer the first entry with a
non-empty, case-insensitively equal title; otherwise fall back to the
highest-row-number entry for that company. -/
def findExistingRow (cache : Cache) (companyName jobTitle : String) :
    Option CacheEntry :=
  if companyName ≠ MANUAL_REVIEW_NEEDED ∧ cacheHas cache (jsLower companyName) = true then
    let pm := cacheGet cache (jsLower companyName)
    let byTitle :=
      if jobTitle ≠ MANUAL_REVIEW_NEEDED then
        pm.find? (fun e => e.title != "" && jsLower e.title == jsLower jobTitle)
      else none
    match byTitle with
    | some e => some e
    | none => reduceLatest pm
  else none

/-- The update path of Main.js lines 573-587: starting from the current sheet
values of the matched row, overwrite each column as the code does.  `e` is the
matched cache entry, `r` the row re-read from the sheet, `now` the
`currentTimestamp`, `m` the message with its extraction. -/
def updateRow (e : CacheEntry) (r : Row) (now : Nat) (m : ExtractedMsg) : Row :=
  let fin := finalStatusToSet m.applicationStatus
  let status' := newStatus r.status fin
  { processedTimestamp := now
    emailDate := if r.emailDate < m.emailDate then m.emailDate else r.emailDate
    platform := m.platform
    company :=
      if m.company ≠ MANUAL_REVIEW_NEEDED ∧
          (r.company = MANUAL_REVIEW_NEEDED ∨ jsLower m.company ≠ jsLower r.company) then
        m.company
      else r.company
    jobTitle :=
      if m.jobTitle ≠ MANUAL_REVIEW_NEEDED ∧
          (r.jobTitle = MANUAL_REVIEW_NEEDED ∨ jsLower m.jobTitle ≠ jsLower r.jobTitle) then
        m.jobTitle
      else r.jobTitle
    status := status'
    peakStatus := computePeak (storedPeak e.peakStatus r.peakStatus) status'
    lastUpdateDate := if r.lastUpdateDate < m.emailDate then m.emailDate else r.lastUpdateDate
    emailSubject := m.emailSubject
    emailLink := emailPermaLink m.msgId
    emailId := m.msgId
    notes := r.notes }

/-- The create path of Main.js lines 594-597: a fresh row seeded from the
extraction; `peakStatus` is the final status unless that is in the
peak-exclusion set, in which case it is the Applied default. -/
def createRow (now : Nat) (m : ExtractedMsg) : Row :=
  let fin := finalStatusToSet m.applicationStatus
  { processedTimestamp := now
    emailDate := m.emailDate
    platform := m.platform
    company := m.company
    jobTitle := m.jobTitle
    status := fin
    peakStatus := if isPeakExcluded fin = false then fin else DEFAULT_STATUS
    lastUpdateDate := m.emailDate
    emailSubject := m.emailSubject
    emailLink := emailPermaLink m.msgId
    emailId := m.msgId
    notes := "" }

/-- The mutable state of one run of `processJobApplicationEmails`: the
"Applications" data rows (sheet row number = list index + 2), the in-memory
company index, and the processed-email-id set (as a list). -/
structure RunState where
  table : List Row
  cache : Cache
  processedEmailIds : List String
deriving Repr, DecidableEq

/-- One iteration body of the message loop (Main.js lines 560-607), restricted
to its effect on the sheet, the cache and the idempotence set.  The sheet write
always succeeds in this model.  If a matched cache entry points outside the
table (impossible in consistent states) the state is returned unchanged. -/
def processMessage (st : RunState) (now : Nat) (m : ExtractedMsg) : RunState :=
  let key := companyCacheKey m.company m.msgId
  match findExistingRow st.cache m.company m.jobTitle with
  | some e =>
    match st.table.get? (e.row - 2) with
    | some r =>
      let r' := updateRow e r now m
      let cKey := if r'.company ≠ MANUAL_REVIEW_NEEDED then jsLower r'.company else key
      { table := st.table.set (e.row - 2) r'
        cache := cacheUpdateRowEntries st.cache cKey e.row
          (fun en => { en with status := r'.status, peakStatus := r'.peakStatus,
                               emailId := m.msgId, title := r'.jobTitle })
        processedEmailIds := st.processedEmailIds ++ [m.msgId] }
    | none => st
  | none =>
    let nr := createRow now m
    let newSRN := st.table.length + 2
    let nKey := if nr.company ≠ MANUAL_REVIEW_NEEDED then jsLower nr.company else key
    { table := st.table ++ [nr]
      cache := cachePush st.cache nKey
        ⟨newSRN, m.msgId, nr.company, nr.jobTitle, nr.status, nr.peakStatus⟩
      processedEmailIds := st.processedEmailIds ++ [m.msgId] }

/-- The preload of Main.js lines 434-457: scan the existing rows, build the
processed-email-id set from the email-id column, and build the company cache
from every row whose trimmed, lower-cased company is non-empty and neither the
sentinel nor "n/a". -/
def preload (table : List Row) : Cache × List String :=
  table.enum.foldl
    (fun (acc : Cache × List String) p =>
      let rN := p.1 + 2
      let r := p.2
      let eId := jsTrim r.emailId
      let oCo := jsTrim r.company
      let oTi := jsTrim r.jobTitle
      let cS := jsTrim r.status
      let cPkS := jsTrim r.peakStatus
      let ids := if eId ≠ "" then acc.2 ++ [eId] else acc.2
      let cL := jsLower oCo
      let cache :=
        if cL ≠ "" ∧ cL ≠ jsLower MANUAL_REVIEW_NEEDED ∧ cL ≠ "n/a" then
          cachePush acc.1 cL ⟨rN, eId, oCo, oTi, cS, cPkS⟩
        else acc.1
      (cache, ids))
    ([], [])

/-- A Gmail thread of the "To Process" label, with its messages already carrying
their (deterministic, per-message) extraction outcome. -/
structure GmailThread where
  threadId : String
  msgs : List ExtractedMsg
deriving Repr, DecidableEq

/-- `THREAD_PROCESSING_LIMIT` of Main.js line 460. -/
def THREAD_PROCESSING_LIMIT : Nat := 20

/-- The fetch-and-filter stage of Main.js lines 459-476: take at most 20
threads, expand to messages, and drop the messages whose id is already in the
idempotence set. -/
def fetchMessages (processedEmailIds : List String) (threads : List GmailThread) :
    List ExtractedMsg :=
  ((threads.take THREAD_PROCESSING_LIMIT).flatMap (fun t => t.msgs)).filter
    (fun m => !(processedEmailIds.contains m.msgId))

/-- Stable insertion of a message into a date-sorted list (the earlier message
stays in front of later messages with an equal date). -/
def insertByDate (m : ExtractedMsg) : List ExtractedMsg → List ExtractedMsg
  | [] => [m]
  | x :: xs => if m.emailDate ≤ x.emailDate then m :: x :: xs else x :: insertByDate m xs

/-- The ascending-date sort of Main.js line 484. -/
def sortByDate : List ExtractedMsg → List ExtractedMsg
  | [] => []
  | m :: ms => insertByDate m (sortByDate ms)

/-- The per-message loop of Main.js lines 494-618.  Each list element pairs the
wall-clock seconds elapsed at the loop check of that iteration with the
message; the loop breaks before processing a message whose check exceeds 320
seconds.  Returns the final state and the messages actually processed. -/
def processLoop (st : RunState) (now : Nat) :
    List (Nat × ExtractedMsg) → RunState × List ExtractedMsg
  | [] => (st, [])
  | (elapsed, m) :: rest =>
    if 320 < elapsed then (st, [])
    else
      let st' := processMessage st now m
      let res := processLoop st' now rest
      (res.1, m :: res.2)

/-- One full run of the queue processor over the reconciliation core:
preload, fetch, filter, sort, then the budgeted message loop.  `clock i` is the
elapsed wall-clock seconds observed at the budget check of iteration `i`. -/
def runOnce (table : List Row) (threads : List GmailThread) (clock : Nat → Nat)
    (now : Nat) : RunState × List ExtractedMsg :=
  let pre := preload table
  let msgs := sortByDate (fetchMessages pre.2 threads)
  let timed := msgs.enum.map (fun p => (clock p.1, p.2))
  processLoop { table := table, cache := pre.1, processedEmailIds := pre.2 } now timed

/-- The JSON object parsed from the model's (fence-stripped) text in
`callGemini_forApplicationDetails` (GeminiService.gs lines 158-182): either not
parseable, or an object whose three expected keys are each present
(`some`, possibly the empty string) or absent (`none`, JS `undefined`). -/
inductive InnerJson where
  | bad
  | obj (company_name job_title status : Option String)
deriving Repr, DecidableEq

/-- The parsed shape of one HTTP response body, as the wrapper inspects it:
`badJson` when `JSON.parse(responseBody)` throws, `withCandidates` when
`candidates[0].content.parts[0].text` exists (carrying the parse of the model's
text), `blocked` when only `promptFeedback.blockReason` exists, `strange` for
any other parsed structure. -/
inductive GBody where
  | badJson
  | withCandidates (inner : InnerJson)
  | blocked (reason : String)
  | strange
deriving Repr, DecidableEq

/-- The outcome of one `UrlFetchApp.fetch` attempt: the fetch threw, or it
returned an HTTP response with the given status code and body. -/
inductive Attempt where
  | fetchThrow
  | resp (code : Nat) (body : GBody)
deriving Repr, DecidableEq

/-- The return value of `callGemini_forApplicationDetails`: `unavailable` is
the JS `null`, `ok` the `{company, title, status}` object. -/
inductive GemResult where
  | unavailable
  | ok (company title status : String)
deriving Repr, DecidableEq

/-- `v || MANUAL_REVIEW_NEEDED` applied to a possibly-absent, possibly-empty
extracted field (GeminiService.gs lines 171-173). -/
def jsOrMRN (v : Option String) : String :=
  match v with
  | none => MANUAL_REVIEW_NEEDED
  | some s => if s = "" then MANUAL_REVIEW_NEEDED else s

/-- The retry loop of GeminiService.gs lines 146-208.  The fuel argument is the
number of attempts still allowed (`maxAttempts - attempt`); a retryable failure
(fetch exception, unparseable 200 body, or HTTP 429) continues with the next
transport outcome while attempts remain and otherwise returns `null`; a
content-safety block and malformed or incomplete model JSON return sentinel
results without retrying; any other non-200 code returns `null` without
retrying. -/
def geminiLoop : Nat → List Attempt → GemResult
  | 0, _ => .unavailable
  | _ + 1, [] => .unavailable
  | remaining + 1, a :: rest =>
    match a with
    | .fetchThrow =>
      if 0 < remaining then geminiLoop remaining rest else .unavailable
    | .resp code body =>
      if code = 200 then
        match body with
        | .badJson =>
          if 0 < remaining then geminiLoop remaining rest else .unavailable
        | .withCandidates inner =>
          match inner with
          | .bad => .ok MANUAL_REVIEW_NEEDED MANUAL_REVIEW_NEEDED MANUAL_REVIEW_NEEDED
          | .obj c t s =>
            if c.isSome && t.isSome && s.isSome then
              .ok (jsOrMRN c) (jsOrMRN t) (jsOrMRN s)
            else .ok MANUAL_REVIEW_NEEDED MANUAL_REVIEW_NEEDED MANUAL_REVIEW_NEEDED
        | .blocked reason =>
          .ok MANUAL_REVIEW_NEEDED MANUAL_REVIEW_NEEDED ("Blocked: " ++ reason)
        | .strange => .unavailable
      else if code = 429 then
        if 0 < remaining then geminiLoop remaining rest else .unavailable
      else .unavailable

/-- `maxAttempts` of GeminiService.gs line 146. -/
def maxAttempts : Nat := 2

/-- `callGemini_forApplicationDetails` restricted to its transport behaviour:
the list holds the outcome of each fetch the loop would perform. -/
def callGeminiDetails (attempts : List Attempt) : GemResult :=
  geminiLoop maxAttempts attempts

/-- The extraction a message ends up with before reconciliation. -/
structure Extraction where
  company : String
  title : String
  status : Option String
deriving Repr, DecidableEq

/-- The caller dispatch of Main.js lines 533-556: with a non-null Gemini result,
use its fields (empty strings fall back to the sentinel) and re-run the keyword
scan when the status is missing, the sentinel, or "Update/Other"; with a null
result, use the regex fallback extractor and the keyword scan.
`keywordStatus` is the value of `parseBodyForStatus(plainBodyText)` and
`regexCompany`/`regexTitle` the fields of
`extractCompanyAndTitle(...)` — both helpers live outside the reconciler. -/
def chooseExtraction (gem : GemResult) (regexCompany regexTitle : String)
    (keywordStatus : Option String) : Extraction :=
  match gem with
  | .ok c t s =>
    let companyName := if c = "" then MANUAL_REVIEW_NEEDED else c
    let jobTitle := if t = "" then MANUAL_REVIEW_NEEDED else t
    let status :=
      if s = "" ∨ s = MANUAL_REVIEW_NEEDED ∨ s = "Update/Other" then
        match keywordStatus with
        | some k =>
          if k ≠ "" ∧ k ≠ DEFAULT_STATUS then some k
          else if s = "" ∧ k = DEFAULT_STATUS then some DEFAULT_STATUS
          else some s
        | none => some s
      else some s
    { company := companyName, title := jobTitle, status := status }
  | .unavailable =>
    { company := regexCompany, title := regexTitle, status := keywordStatus }

/-- The successive `peakStatus` values of one record whose update path receives
the given sequence of post-update status values (`statAfterUpd` of Main.js
line 583), starting from seed `peak0`. -/
def peakTrace (peak0 : String) : List String → List String
  | [] => [peak0]
  | s :: ss => peak0 :: peakTrace (computePeak peak0 s) ss

/-- Every cache key holds at least one entry (true of every reachable cache:
both push sites append an entry when the key is created). -/
def cacheEntriesNonempty (c : Cache) : Prop :=
  ∀ p ∈ c, p.2 ≠ []

/-- Every cached row number points at an existing data row of the table. -/
def cacheRowsValid (c : Cache) (table : List Row) : Prop :=
  ∀ p ∈ c, ∀ e ∈ p.2, 2 ≤ e.row ∧ e.row - 2 < table.length

/-- Example row: an Acme Inc. application whose status and peak both sit at
"Interview Scheduled". -/
def exRowInterview : Row :=
  { processedTimestamp := 1, emailDate := 10, platform := "LinkedIn",
    company := "Acme Inc.", jobTitle := "Data Analyst", status := INTERVIEW_STATUS,
    peakStatus := INTERVIEW_STATUS, lastUpdateDate := 10, emailSubject := "interview",
    emailLink := "link", emailId := "m-int", notes := "" }

/-- Cache entry matching `exRowInterview` at sheet row 2. -/
def exEntryInterview : CacheEntry :=
  { row := 2, emailId := "m-int", company := "Acme Inc.", title := "Data Analyst",
    status := INTERVIEW_STATUS, peakStatus := INTERVIEW_STATUS }

/-- Example message: a rejection email for the Acme Inc. application. -/
def exMsgRejected : ExtractedMsg :=
  { msgId := "m-rej", threadId := "t-acme", emailDate := 20, emailSubject := "update",
    platform := "LinkedIn", company := "Acme Inc.", jobTitle := "Data Analyst",
    applicationStatus := some REJECTED_STATUS }

/-- Example row whose status is the accepted-offer status. -/
def exRowAccepted : Row :=
  { exRowInterview with
    status := ACCEPTED_STATUS
    peakStatus := OFFER_STATUS }

/-- Cache entry matching `exRowAccepted`. -/
def exEntryAccepted : CacheEntry :=
  { exEntryInterview with
    status := ACCEPTED_STATUS
    peakStatus := OFFER_STATUS }

/-- Example message carrying an Applied extraction. -/
def exMsgApplied : ExtractedMsg :=
  { exMsgRejected with
    msgId := "m-app"
    applicationStatus := some DEFAULT_STATUS }

/-- Run-scenario message 1: the Applied confirmation, email date 1. -/
def exMsgA1 : ExtractedMsg :=
  { msgId := "msgA1", threadId := "threadA", emailDate := 1, emailSubject := "applied",
    platform := "Other", company := "Acme", jobTitle := "Dev",
    applicationStatus := some DEFAULT_STATUS }

/-- Run-scenario message 2: the interview invitation, email date 2, same
(company, title) identity as `exMsgA1`. -/
def exMsgA2 : ExtractedMsg :=
  { exMsgA1 with
    msgId := "msgA2"
    emailDate := 2
    emailSubject := "interview"
    applicationStatus := some INTERVIEW_STATUS }

/-- The thread holding both scenario messages. -/
def exThreadA : GmailThread := { threadId := "threadA", msgs := [exMsgA1, exMsgA2] }

/-- First run of the scenario: empty table, both messages arrive. -/
def exRun1 : RunState × List ExtractedMsg := runOnce [] [exThreadA] (fun _ => 0) 5

/-- Second run of the scenario: the table produced by the first run, the same
thread re-scanned. -/
def exRun2 : RunState × List ExtractedMsg :=
  runOnce exRun1.1.table [exThreadA] (fun _ => 0) 9

/-- A manual-review message with a numbered id, for the large-thread run. -/
def mkManualMsg (i : Nat) : ExtractedMsg :=
  { msgId := "mm" ++ toString i, threadId := "bigthread", emailDate := 0,
    emailSubject := "s", platform := "Other", company := MANUAL_REVIEW_NEEDED,
    jobTitle := MANUAL_REVIEW_NEEDED, applicationStatus := none }

/-- A single thread holding 21 messages, one more than
`THREAD_PROCESSING_LIMIT`. -/
def bigThread : GmailThread :=
  { threadId := "bigthread", msgs := (List.range 21).map mkManualMsg }

/-- A well-formed 200 response whose model JSON parses with all three keys. -/
def goodBody : GBody := .withCandidates (.obj (some "Acme") (some "Dev") (some "Applied"))

/-- The empty run state: no data rows, empty cache, empty idempotence set. -/
def exEmptyState : RunState := { table := [], cache := [], processedEmailIds := [] }

theorem newStatus_accepted_lock (stored fin : String)
    (h1 : statInSheet stored = ACCEPTED_STATUS) (h2 : fin ≠ ACCEPTED_STATUS) :
    newStatus stored fin = stored := by
  unfold newStatus
  rw [h1]
  rw [if_neg]
  simp [h2]

/-- Claim C10: once an existing record carries the accepted-offer status
("Offer Accepted"), the update path never changes the status field for any
incoming extraction whose final status is not itself the accepted-offer
status — in particular the unconditional Rejected/Offer override does not
apply (guard of Main.js line 582). -/
theorem C10_accepted_status_lock (e : CacheEntry) (r : Row) (now : Nat) (m : ExtractedMsg)
    (h1 : r.status = ACCEPTED_STATUS)
    (h2 : finalStatusToSet m.applicationStatus ≠ ACCEPTED_STATUS) :
    (updateRow e r now m).status = r.status := by
  have hs : (updateRow e r now m).status =
      newStatus r.status (finalStatusToSet m.applicationStatus) := rfl
  rw [hs]
  apply newStatus_accepted_lock
  · rw [h1]; decide
  · exact h2

theorem C10_witness :
    exRowAccepted.status = ACCEPTED_STATUS ∧
    finalStatusToSet exMsgRejected.applicationStatus ≠ ACCEPTED_STATUS ∧
    (updateRow exEntryAccepted exRowAccepted 7 exMsgRejected).status = exRowAccepted.status :=
  ⟨by decide, by decide,
    C10_accepted_status_lock exEntryAccepted exRowAccepted 7 exMsgRejected (by decide) (by decide)⟩

/-- Claim C2 counterexample: with current status "Offer Accepted" a "Rejected"
extraction does NOT overwrite the status field, although the claimed
unconditional Rejected/Offer override says it must. -/
theorem C2_cex :
    (updateRow exEntryAccepted exRowAccepted 7 exMsgRejected).status = ACCEPTED_STATUS ∧
    ACCEPTED_STATUS ≠ REJECTED_STATUS := by decide

/-- Claim C2 (amended): on the update path the status field is overwritten to
the new status exactly when the accepted-lock guard passes (the trimmed current
status is not "Offer Accepted", or the new status is "Offer Accepted") AND the
new rank is at least the current rank or the new status is Rejected or
Offer Received; moreover the terminal-override scenario holds: from status and
peak "Interview Scheduled", a "Rejected" extraction sets status "Rejected" and
leaves peak "Interview Scheduled". -/
theorem C2_overwrite_rule (e : CacheEntry) (r : Row) (now : Nat) (m : ExtractedMsg)
    (hne : finalStatusToSet m.applicationStatus ≠ r.status) :
    ((updateRow e r now m).status = finalStatusToSet m.applicationStatus ↔
      ((statInSheet r.status ≠ ACCEPTED_STATUS ∨
          finalStatusToSet m.applicationStatus = ACCEPTED_STATUS) ∧
        ((STATUS_HIERARCHY (finalStatusToSet m.applicationStatus)).getD 0 ≥
            (STATUS_HIERARCHY (statInSheet r.status)).getD 0 ∨
          finalStatusToSet m.applicationStatus = REJECTED_STATUS ∨
          finalStatusToSet m.applicationStatus = OFFER_STATUS))) ∧
    (updateRow exEntryInterview exRowInterview now exMsgRejected).status = REJECTED_STATUS ∧
    (updateRow exEntryInterview exRowInterview now exMsgRejected).peakStatus = INTERVIEW_STATUS := by
  refine ⟨?_, ?_, ?_⟩
  · have hs : (updateRow e r now m).status =
        newStatus r.status (finalStatusToSet m.applicationStatus) := rfl
    rw [hs]
    unfold newStatus
    by_cases h1 : statInSheet r.status ≠ ACCEPTED_STATUS ∨
        finalStatusToSet m.applicationStatus = ACCEPTED_STATUS
    · rw [if_pos h1]
      by_cases h2 : (STATUS_HIERARCHY (finalStatusToSet m.applicationStatus)).getD 0 ≥
          (STATUS_HIERARCHY (statInSheet r.status)).getD 0 ∨
          finalStatusToSet m.applicationStatus = REJECTED_STATUS ∨
          finalStatusToSet m.applicationStatus = OFFER_STATUS
      · rw [if_pos h2]
        simp [h1, h2]
      · rw [if_neg h2]
        simp only [iff_iff_implies_and_implies]
        constructor
        · intro hq; exact absurd hq.symm hne
        · intro hq; exact absurd hq.2 h2
    · rw [if_neg h1]
      simp only [iff_iff_implies_and_implies]
      constructor
      · intro hq; exact absurd hq.symm hne
      · intro hq; exact absurd hq.1 h1
  · have hs : (updateRow exEntryInterview exRowInterview now exMsgRejected).status =
        newStatus exRowInterview.status (finalStatusToSet exMsgRejected.applicationStatus) := rfl
    rw [hs]; decide
  · have hs : (updateRow exEntryInterview exRowInterview now exMsgRejected).peakStatus =
        computePeak (storedPeak exEntryInterview.peakStatus exRowInterview.peakStatus)
          (newStatus exRowInterview.status (finalStatusToSet exMsgRejected.applicationStatus)) := rfl
    rw [hs]; decide

theorem C2_overwrite_rule_witness :
    finalStatusToSet exMsgRejected.applicationStatus ≠ exRowInterview.status ∧
    ((updateRow exEntryInterview exRowInterview 3 exMsgRejected).status =
        finalStatusToSet exMsgRejected.applicationStatus ↔
      ((statInSheet exRowInterview.status ≠ ACCEPTED_STATUS ∨
          finalStatusToSet exMsgRejected.applicationStatus = ACCEPTED_STATUS) ∧
        ((STATUS_HIERARCHY (finalStatusToSet exMsgRejected.applicationStatus)).getD 0 ≥
            (STATUS_HIERARCHY (statInSheet exRowInterview.status)).getD 0 ∨
          finalStatusToSet exMsgRejected.applicationStatus = REJECTED_STATUS ∨
          finalStatusToSet exMsgRejected.applicationStatus = OFFER_STATUS))) ∧
    (updateRow exEntryInterview exRowInterview 3 exMsgRejected).status = REJECTED_STATUS ∧
    (updateRow exEntryInterview exRowInterview 3 exMsgRejected).peakStatus = INTERVIEW_STATUS :=
  ⟨by decide,
    (C2_overwrite_rule exEntryInterview exRowInterview 3 exMsgRejected (by decide)).1,
    (C2_overwrite_rule exEntryInterview exRowInterview 3 exMsgRejected (by decide)).2.1,
    (C2_overwrite_rule exEntryInterview exRowInterview 3 exMsgRejected (by decide)).2.2⟩

theorem findExistingRow_mrn (c : Cache) (t : String) :
    findExistingRow c MANUAL_REVIEW_NEEDED t = none := by
  unfold findExistingRow
  rw [if_neg]
  intro h
  exact h.1 rfl

/-- Claim C7: an extraction whose company is the MANUAL_REVIEW_NEEDED sentinel
never matches or merges with an existing row: it always appends exactly one
fresh row, and two sentinel extractions with distinct message ids always
produce two distinct rows. -/
theorem C7_manual_review_isolation (st : RunState) (n1 n2 : Nat) (m1 m2 : ExtractedMsg)
    (h1 : m1.company = MANUAL_REVIEW_NEEDED) (h2 : m2.company = MANUAL_REVIEW_NEEDED) :
    (processMessage st n1 m1).table = st.table ++ [createRow n1 m1] ∧
    (processMessage (processMessage st n1 m1) n2 m2).table =
      st.table ++ [createRow n1 m1] ++ [createRow n2 m2] ∧
    (m1.msgId ≠ m2.msgId → createRow n1 m1 ≠ createRow n2 m2) := by
  have step : ∀ (s : RunState) (n : Nat) (m : ExtractedMsg), m.company = MANUAL_REVIEW_NEEDED →
      (processMessage s n m).table = s.table ++ [createRow n m] := by
    intro s n m hm
    unfold processMessage
    rw [hm, findExistingRow_mrn]
  refine ⟨step st n1 m1 h1, ?_, ?_⟩
  · rw [step _ n2 m2 h2, step st n1 m1 h1]
  · intro hid hcontra
    have : (createRow n1 m1).emailId = (createRow n2 m2).emailId := by rw [hcontra]
    exact hid this


theorem C7_witness :
    (mkManualMsg 0).company = MANUAL_REVIEW_NEEDED ∧
    (mkManualMsg 1).company = MANUAL_REVIEW_NEEDED ∧
    ((processMessage exEmptyState 1 (mkManualMsg 0)).table =
        exEmptyState.table ++ [createRow 1 (mkManualMsg 0)] ∧
      (processMessage (processMessage exEmptyState 1 (mkManualMsg 0)) 2 (mkManualMsg 1)).table =
        exEmptyState.table ++ [createRow 1 (mkManualMsg 0)] ++ [createRow 2 (mkManualMsg 1)] ∧
      ((mkManualMsg 0).msgId ≠ (mkManualMsg 1).msgId →
        createRow 1 (mkManualMsg 0) ≠ createRow 2 (mkManualMsg 1))) :=
  ⟨by decide, by decide,
    C7_manual_review_isolation exEmptyState 1 2 (mkManualMsg 0) (mkManualMsg 1) (by decide) (by decide)⟩

/-- Claim C8: on the update path, email subject, link, id and platform are
always overwritten to the latest processed email; company and job title are
overwritten only when the incoming value is non-sentinel and differs from the
stored value (a resolved field is never overwritten with the sentinel); and
the email date and last-update date advance exactly when the new email is
strictly later. -/
theorem C8_update_field_merge (e : CacheEntry) (r : Row) (now : Nat) (m : ExtractedMsg) :
    (updateRow e r now m).emailSubject = m.emailSubject ∧
    (updateRow e r now m).emailLink = emailPermaLink m.msgId ∧
    (updateRow e r now m).emailId = m.msgId ∧
    (updateRow e r now m).platform = m.platform ∧
    (m.company = MANUAL_REVIEW_NEEDED → (updateRow e r now m).company = r.company) ∧
    ((updateRow e r now m).company ≠ r.company →
      m.company ≠ MANUAL_REVIEW_NEEDED ∧ (updateRow e r now m).company = m.company ∧
        m.company ≠ r.company) ∧
    (m.jobTitle = MANUAL_REVIEW_NEEDED → (updateRow e r now m).jobTitle = r.jobTitle) ∧
    ((updateRow e r now m).jobTitle ≠ r.jobTitle →
      m.jobTitle ≠ MANUAL_REVIEW_NEEDED ∧ (updateRow e r now m).jobTitle = m.jobTitle ∧
        m.jobTitle ≠ r.jobTitle) ∧
    (m.emailDate ≤ r.emailDate → (updateRow e r now m).emailDate = r.emailDate) ∧
    (r.emailDate < m.emailDate → (updateRow e r now m).emailDate = m.emailDate) ∧
    (m.emailDate ≤ r.lastUpdateDate → (updateRow e r now m).lastUpdateDate = r.lastUpdateDate) ∧
    (r.lastUpdateDate < m.emailDate → (updateRow e r now m).lastUpdateDate = m.emailDate) := by
  refine ⟨rfl, rfl, rfl, rfl, ?_, ?_, ?_, ?_, ?_, ?_, ?_, ?_⟩
  · intro hm
    have hc : (updateRow e r now m).company =
        (if m.company ≠ MANUAL_REVIEW_NEEDED ∧
            (r.company = MANUAL_REVIEW_NEEDED ∨ jsLower m.company ≠ jsLower r.company) then
          m.company else r.company) := rfl
    rw [hc, if_neg]
    intro hq
    exact hq.1 hm
  · intro hne
    have hc : (updateRow e r now m).company =
        (if m.company ≠ MANUAL_REVIEW_NEEDED ∧
            (r.company = MANUAL_REVIEW_NEEDED ∨ jsLower m.company ≠ jsLower r.company) then
          m.company else r.company) := rfl
    rw [hc] at hne ⊢
    by_cases hq : m.company ≠ MANUAL_REVIEW_NEEDED ∧
        (r.company = MANUAL_REVIEW_NEEDED ∨ jsLower m.company ≠ jsLower r.company)
    · rw [if_pos hq] at hne ⊢
      refine ⟨hq.1, rfl, ?_⟩
      rcases hq.2 with hmr | hlow
      · rw [hmr]; exact hq.1
      · intro heq; exact hlow (by rw [heq])
    · rw [if_neg hq] at hne
      exact absurd rfl hne
  · intro hm
    have hc : (updateRow e r now m).jobTitle =
        (if m.jobTitle ≠ MANUAL_REVIEW_NEEDED ∧
            (r.jobTitle = MANUAL_REVIEW_NEEDED ∨ jsLower m.jobTitle ≠ jsLower r.jobTitle) then
          m.jobTitle else r.jobTitle) := rfl
    rw [hc, if_neg]
    intro hq
    exact hq.1 hm
  · intro hne
    have hc : (updateRow e r now m).jobTitle =
        (if m.jobTitle ≠ MANUAL_REVIEW_NEEDED ∧
            (r.jobTitle = MANUAL_REVIEW_NEEDED ∨ jsLower m.jobTitle ≠ jsLower r.jobTitle) then
          m.jobTitle else r.jobTitle) := rfl
    rw [hc] at hne ⊢
    by_cases hq : m.jobTitle ≠ MANUAL_REVIEW_NEEDED ∧
        (r.jobTitle = MANUAL_REVIEW_NEEDED ∨ jsLower m.jobTitle ≠ jsLower r.jobTitle)
    · rw [if_pos hq] at hne ⊢
      refine ⟨hq.1, rfl, ?_⟩
      rcases hq.2 with hmr | hlow
      · rw [hmr]; exact hq.1
      · intro heq; exact hlow (by rw [heq])
    · rw [if_neg hq] at hne
      exact absurd rfl hne
  · intro hle
    have hd : (updateRow e r now m).emailDate =
        (if r.emailDate < m.emailDate then m.emailDate else r.emailDate) := rfl
    rw [hd, if_neg (Nat.not_lt.mpr hle)]
  · intro hlt
    have hd : (updateRow e r now m).emailDate =
        (if r.emailDate < m.emailDate then m.emailDate else r.emailDate) := rfl
    rw [hd, if_pos hlt]
  · intro hle
    have hd : (updateRow e r now m).lastUpdateDate =
        (if r.lastUpdateDate < m.emailDate then m.emailDate else r.lastUpdateDate) := rfl
    rw [hd, if_neg (Nat.not_lt.mpr hle)]
  · intro hlt
    have hd : (updateRow e r now m).lastUpdateDate =
        (if r.lastUpdateDate < m.emailDate then m.emailDate else r.lastUpdateDate) := rfl
    rw [hd, if_pos hlt]

theorem C8_witness :
    (updateRow exEntryInterview exRowInterview 3 exMsgRejected).emailSubject =
        exMsgRejected.emailSubject ∧
    (updateRow exEntryInterview exRowInterview 3 exMsgRejected).emailLink =
        emailPermaLink exMsgRejected.msgId ∧
    (updateRow exEntryInterview exRowInterview 3 exMsgRejected).emailId = exMsgRejected.msgId ∧
    (updateRow exEntryInterview exRowInterview 3 exMsgRejected).platform =
        exMsgRejected.platform ∧
    (exMsgRejected.company = MANUAL_REVIEW_NEEDED →
      (updateRow exEntryInterview exRowInterview 3 exMsgRejected).company =
        exRowInterview.company) ∧
    ((updateRow exEntryInterview exRowInterview 3 exMsgRejected).company ≠
        exRowInterview.company →
      exMsgRejected.company ≠ MANUAL_REVIEW_NEEDED ∧
        (updateRow exEntryInterview exRowInterview 3 exMsgRejected).company =
          exMsgRejected.company ∧
        exMsgRejected.company ≠ exRowInterview.company) ∧
    (exMsgRejected.jobTitle = MANUAL_REVIEW_NEEDED →
      (updateRow exEntryInterview exRowInterview 3 exMsgRejected).jobTitle =
        exRowInterview.jobTitle) ∧
    ((updateRow exEntryInterview exRowInterview 3 exMsgRejected).jobTitle ≠
        exRowInterview.jobTitle →
      exMsgRejected.jobTitle ≠ MANUAL_REVIEW_NEEDED ∧
        (updateRow exEntryInterview exRowInterview 3 exMsgRejected).jobTitle =
          exMsgRejected.jobTitle ∧
        exMsgRejected.jobTitle ≠ exRowInterview.jobTitle) ∧
    (exMsgRejected.emailDate ≤ exRowInterview.emailDate →
      (updateRow exEntryInterview exRowInterview 3 exMsgRejected).emailDate =
        exRowInterview.emailDate) ∧
    (exRowInterview.emailDate < exMsgRejected.emailDate →
      (updateRow exEntryInterview exRowInterview 3 exMsgRejected).emailDate =
        exMsgRejected.emailDate) ∧
    (exMsgRejected.emailDate ≤ exRowInterview.lastUpdateDate →
      (updateRow exEntryInterview exRowInterview 3 exMsgRejected).lastUpdateDate =
        exRowInterview.lastUpdateDate) ∧
    (exRowInterview.lastUpdateDate < exMsgRejected.emailDate →
      (updateRow exEntryInterview exRowInterview 3 exMsgRejected).lastUpdateDate =
        exMsgRejected.emailDate) :=
  C8_update_field_merge exEntryInterview exRowInterview 3 exMsgRejected

theorem rankGtApplied_lt (s : String) (h : rankGtApplied s = true) : 1 < peakRank s := by
  unfold rankGtApplied at h
  cases hs : STATUS_HIERARCHY s with
  | none => rw [hs] at h; simp at h
  | some a =>
    rw [hs, show STATUS_HIERARCHY DEFAULT_STATUS = some 1 from by decide] at h
    simp at h
    simp [peakRank, hs]
    exact h

theorem peakRank_le_normalized (p : String) :
    peakRank p ≤ peakRank (if p = "" ∨ p = MANUAL_REVIEW_NEEDED then DEFAULT_STATUS else p) := by
  by_cases h : p = "" ∨ p = MANUAL_REVIEW_NEEDED
  · rw [if_pos h]
    rcases h with h | h <;> subst h <;> decide
  · rw [if_neg h]

theorem peakRank_le_computePeak (p s : String) : peakRank p ≤ peakRank (computePeak p s) := by
  unfold computePeak
  have hP := peakRank_le_normalized p
  set P := if p = "" ∨ p = MANUAL_REVIEW_NEEDED then DEFAULT_STATUS else p with hPdef
  by_cases h1 : peakRank s > peakRank P ∧ isPeakExcluded s = false
  · rw [if_pos h1]
    exact le_of_lt (lt_of_le_of_lt hP h1.1)
  · rw [if_neg h1]
    by_cases h2 : P = DEFAULT_STATUS ∧ isPeakExcluded s = false ∧ rankGtApplied s = true
    · rw [if_pos h2]
      have hgt := rankGtApplied_lt s h2.2.2
      have : peakRank P = 1 := by rw [h2.1]; decide
      omega
    · rw [if_neg h2]
      exact hP

theorem normalized_not_excluded (p : String) (h : isPeakExcluded p = false) :
    isPeakExcluded (if p = "" ∨ p = MANUAL_REVIEW_NEEDED then DEFAULT_STATUS else p) = false := by
  by_cases hp : p = "" ∨ p = MANUAL_REVIEW_NEEDED
  · rw [if_pos hp]; decide
  · rw [if_neg hp]; exact h

theorem computePeak_not_excluded (p s : String) (h : isPeakExcluded p = false) :
    isPeakExcluded (computePeak p s) = false := by
  unfold computePeak
  have hN := normalized_not_excluded p h
  set P := if p = "" ∨ p = MANUAL_REVIEW_NEEDED then DEFAULT_STATUS else p with hPdef
  by_cases h1 : peakRank s > peakRank P ∧ isPeakExcluded s = false
  · rw [if_pos h1]; exact h1.2
  · rw [if_neg h1]
    by_cases h2 : P = DEFAULT_STATUS ∧ isPeakExcluded s = false ∧ rankGtApplied s = true
    · rw [if_pos h2]; exact h2.2.1
    · rw [if_neg h2]; exact hN

theorem createRow_peak_not_excluded (now : Nat) (m : ExtractedMsg) :
    isPeakExcluded (createRow now m).peakStatus = false := by
  have hc : (createRow now m).peakStatus =
      (if isPeakExcluded (finalStatusToSet m.applicationStatus) = false then
        finalStatusToSet m.applicationStatus else DEFAULT_STATUS) := rfl
  rw [hc]
  by_cases h : isPeakExcluded (finalStatusToSet m.applicationStatus) = false
  · rw [if_pos h]; exact h
  · rw [if_neg h]; decide

theorem peakTrace_head_cons (p0 : String) (l : List String) :
    ∃ tl, peakTrace p0 l = p0 :: tl := by
  cases l with
  | nil => exact ⟨[], rfl⟩
  | cons s ss => exact ⟨peakTrace (computePeak p0 s) ss, rfl⟩

theorem peakTrace_chain (stats : List String) :
    ∀ p0, List.Chain' (fun a b => peakRank a ≤ peakRank b) (peakTrace p0 stats) := by
  induction stats with
  | nil => intro p0; simp [peakTrace]
  | cons s ss ih =>
    intro p0
    show List.Chain' (fun a b => peakRank a ≤ peakRank b)
      (p0 :: peakTrace (computePeak p0 s) ss)
    obtain ⟨tl, htl⟩ := peakTrace_head_cons (computePeak p0 s) ss
    rw [htl, List.chain'_cons]
    constructor
    · exact peakRank_le_computePeak p0 s
    · rw [← htl]; exact ih (computePeak p0 s)

theorem peakTrace_not_excluded (stats : List String) :
    ∀ p0, isPeakExcluded p0 = false →
      ∀ p ∈ peakTrace p0 stats, isPeakExcluded p = false := by
  induction stats with
  | nil =>
    intro p0 h0 p hp
    simp [peakTrace] at hp
    rw [hp]; exact h0
  | cons s ss ih =>
    intro p0 h0 p hp
    have : p = p0 ∨ p ∈ peakTrace (computePeak p0 s) ss := by
      simpa [peakTrace] using hp
    rcases this with h | h
    · rw [h]; exact h0
    · exact ih (computePeak p0 s) (computePeak_not_excluded p0 s h0) p h

/-- Claim C1: peak-status monotonicity.  The update-path peak equals
`computePeak` of the cached peak and the post-update status; one step never
decreases the peak rank and never introduces a peak-exclusion value; the
create-path seed is never a peak-exclusion value; and along any sequence of
reconciled statuses the peak ranks are non-decreasing and every peak value
stays outside the exclusion set (Rejected, Offer Accepted, the sentinel,
"Update/Other"), even when the status field holds such a value. -/
theorem C1_peak_monotonicity (now : Nat) (m : ExtractedMsg) (stats : List String)
    (e : CacheEntry) (r : Row) (n2 : Nat) (m2 : ExtractedMsg)
    (hcp : e.peakStatus ≠ "") :
    (updateRow e r n2 m2).peakStatus =
      computePeak e.peakStatus (newStatus r.status (finalStatusToSet m2.applicationStatus)) ∧
    peakRank e.peakStatus ≤ peakRank (updateRow e r n2 m2).peakStatus ∧
    (isPeakExcluded e.peakStatus = false →
      isPeakExcluded (updateRow e r n2 m2).peakStatus = false) ∧
    isPeakExcluded (createRow now m).peakStatus = false ∧
    List.Chain' (fun a b => peakRank a ≤ peakRank b)
      (peakTrace (createRow now m).peakStatus stats) ∧
    (∀ p ∈ peakTrace (createRow now m).peakStatus stats, isPeakExcluded p = false) := by
  have hsp : storedPeak e.peakStatus r.peakStatus = e.peakStatus := by
    unfold storedPeak
    rw [if_neg hcp]
  have hupd : (updateRow e r n2 m2).peakStatus =
      computePeak (storedPeak e.peakStatus r.peakStatus)
        (newStatus r.status (finalStatusToSet m2.applicationStatus)) := rfl
  rw [hupd, hsp]
  refine ⟨rfl, peakRank_le_computePeak _ _, fun h => computePeak_not_excluded _ _ h,
    createRow_peak_not_excluded now m, peakTrace_chain stats _,
    peakTrace_not_excluded stats _ (createRow_peak_not_excluded now m)⟩

theorem C1_witness :
    exEntryInterview.peakStatus ≠ "" ∧
    ((updateRow exEntryInterview exRowInterview 4 exMsgRejected).peakStatus =
        computePeak exEntryInterview.peakStatus
          (newStatus exRowInterview.status (finalStatusToSet exMsgRejected.applicationStatus)) ∧
      peakRank exEntryInterview.peakStatus ≤
        peakRank (updateRow exEntryInterview exRowInterview 4 exMsgRejected).peakStatus ∧
      (isPeakExcluded exEntryInterview.peakStatus = false →
        isPeakExcluded (updateRow exEntryInterview exRowInterview 4 exMsgRejected).peakStatus =
          false) ∧
      isPeakExcluded (createRow 3 exMsgApplied).peakStatus = false ∧
      List.Chain' (fun a b => peakRank a ≤ peakRank b)
        (peakTrace (createRow 3 exMsgApplied).peakStatus
          [INTERVIEW_STATUS, REJECTED_STATUS]) ∧
      (∀ p ∈ peakTrace (createRow 3 exMsgApplied).peakStatus
          [INTERVIEW_STATUS, REJECTED_STATUS], isPeakExcluded p = false)) :=
  ⟨by decide,
    C1_peak_monotonicity 3 exMsgApplied [INTERVIEW_STATUS, REJECTED_STATUS]
      exEntryInterview exRowInterview 4 exMsgRejected (by decide)⟩

/-- Claim C4 counterexample: a 200 response whose model JSON is missing the
required company_name key makes the wrapper return the sentinel triple, not the
Unavailable (null) signal, so the caller does not run the fallback extractor
(the extraction differs from the fallback one). -/
theorem C4_cex :
    callGeminiDetails [.resp 200 (.withCandidates (.obj none (some "Engineer") (some "Applied")))] =
      .ok MANUAL_REVIEW_NEEDED MANUAL_REVIEW_NEEDED MANUAL_REVIEW_NEEDED ∧
    GemResult.ok MANUAL_REVIEW_NEEDED MANUAL_REVIEW_NEEDED MANUAL_REVIEW_NEEDED ≠
      GemResult.unavailable ∧
    chooseExtraction
        (.ok MANUAL_REVIEW_NEEDED MANUAL_REVIEW_NEEDED MANUAL_REVIEW_NEEDED)
        "Acme" "Dev" (some "Applied") ≠
      chooseExtraction .unavailable "Acme" "Dev" (some "Applied") := by decide

/-- Claim C4 (amended): a 200 payload whose model JSON is unparseable or lacks
any of the three required keys yields the sentinel triple (not Unavailable);
Unavailable (null) is returned for persistent fetch exceptions, persistent
rate limiting, non-200/429 HTTP codes, and 200 responses without the candidates
structure; and on Unavailable the caller takes the fallback-extractor result. -/
theorem C4_validation_behaviour :
    (∀ (t s : Option String) (rest : List Attempt),
      callGeminiDetails (.resp 200 (.withCandidates (.obj none t s)) :: rest) =
        .ok MANUAL_REVIEW_NEEDED MANUAL_REVIEW_NEEDED MANUAL_REVIEW_NEEDED) ∧
    (∀ (c s : Option String) (rest : List Attempt),
      callGeminiDetails (.resp 200 (.withCandidates (.obj c none s)) :: rest) =
        .ok MANUAL_REVIEW_NEEDED MANUAL_REVIEW_NEEDED MANUAL_REVIEW_NEEDED) ∧
    (∀ (c t : Option String) (rest : List Attempt),
      callGeminiDetails (.resp 200 (.withCandidates (.obj c t none)) :: rest) =
        .ok MANUAL_REVIEW_NEEDED MANUAL_REVIEW_NEEDED MANUAL_REVIEW_NEEDED) ∧
    (∀ rest : List Attempt,
      callGeminiDetails (.resp 200 (.withCandidates .bad) :: rest) =
        .ok MANUAL_REVIEW_NEEDED MANUAL_REVIEW_NEEDED MANUAL_REVIEW_NEEDED) ∧
    callGeminiDetails [.fetchThrow, .fetchThrow] = .unavailable ∧
    (∀ b b2 : GBody, callGeminiDetails [.resp 429 b, .resp 429 b2] = .unavailable) ∧
    (∀ (b : GBody) (rest : List Attempt),
      callGeminiDetails (.resp 500 b :: rest) = .unavailable) ∧
    (∀ rest : List Attempt,
      callGeminiDetails (.resp 200 .strange :: rest) = .unavailable) ∧
    (∀ (rc rt : String) (kw : Option String),
      chooseExtraction .unavailable rc rt kw =
        { company := rc, title := rt, status := kw }) := by
  refine ⟨?_, ?_, ?_, ?_, by decide, ?_, ?_, ?_, ?_⟩
  · intro t s rest
    simp [callGeminiDetails, maxAttempts, geminiLoop]
  · intro c s rest
    simp [callGeminiDetails, maxAttempts, geminiLoop]
  · intro c t rest
    simp [callGeminiDetails, maxAttempts, geminiLoop]
  · intro rest
    simp [callGeminiDetails, maxAttempts, geminiLoop]
  · intro b b2
    simp [callGeminiDetails, maxAttempts, geminiLoop]
  · intro b rest
    simp [callGeminiDetails, maxAttempts, geminiLoop]
  · intro rest
    simp [callGeminiDetails, maxAttempts, geminiLoop]
  · intro rc rt kw
    rfl

/-- Claim C5 counterexample: a fetch exception (not a rate-limit signal) on the
first attempt is followed by a second attempt that succeeds, so a non-rate-limit
failure kind does trigger a retry. -/
theorem C5_cex :
    callGeminiDetails [.fetchThrow, .resp 200 goodBody] = .ok "Acme" "Dev" "Applied" ∧
    GemResult.ok "Acme" "Dev" "Applied" ≠ GemResult.unavailable := by decide

/-- Claim C5 (amended): the wrapper retries (once, `maxAttempts = 2`) on a
rate-limit 429 response AND on a fetch/parse exception, returning Unavailable
on persistent failure; a content-safety block is returned as a distinct
"Blocked: reason" status without any retry; other HTTP error codes and
unexpected 200 structures return Unavailable without retry. -/
theorem C5_retry_behaviour :
    (∀ b : GBody, callGeminiDetails [.resp 429 b, .resp 200 goodBody] =
      .ok "Acme" "Dev" "Applied") ∧
    callGeminiDetails [.fetchThrow, .resp 200 goodBody] = .ok "Acme" "Dev" "Applied" ∧
    (∀ b b2 : GBody, callGeminiDetails [.resp 429 b, .resp 429 b2] = .unavailable) ∧
    callGeminiDetails [.fetchThrow, .fetchThrow] = .unavailable ∧
    (∀ (reason : String) (rest : List Attempt),
      callGeminiDetails (.resp 200 (.blocked reason) :: rest) =
        .ok MANUAL_REVIEW_NEEDED MANUAL_REVIEW_NEEDED ("Blocked: " ++ reason)) ∧
    (∀ (b : GBody) (rest : List Attempt),
      callGeminiDetails (.resp 503 b :: rest) = .unavailable) ∧
    (∀ rest : List Attempt,
      callGeminiDetails (.resp 200 .strange :: rest) = .unavailable) := by
  refine ⟨?_, by decide, ?_, by decide, ?_, ?_, ?_⟩
  · intro b
    simp [callGeminiDetails, maxAttempts, geminiLoop, goodBody, jsOrMRN]
  · intro b b2
    simp [callGeminiDetails, maxAttempts, geminiLoop]
  · intro reason rest
    simp [callGeminiDetails, maxAttempts, geminiLoop]
  · intro b rest
    simp [callGeminiDetails, maxAttempts, geminiLoop]
  · intro rest
    simp [callGeminiDetails, maxAttempts, geminiLoop]

theorem processLoop_spec (now : Nat) :
    ∀ (l : List (Nat × ExtractedMsg)) (st : RunState),
      (processLoop st now l).2 =
        (l.takeWhile (fun p => decide (p.1 ≤ 320))).map Prod.snd ∧
      (processLoop st now l).1 =
        ((l.takeWhile (fun p => decide (p.1 ≤ 320))).map Prod.snd).foldl
          (fun s m => processMessage s now m) st := by
  intro l
  induction l with
  | nil => intro st; simp [processLoop]
  | cons p rest ih =>
    intro st
    obtain ⟨e, m⟩ := p
    by_cases h : 320 < e
    · have hTW : ((e, m) :: rest).takeWhile (fun p => decide (p.1 ≤ 320)) = [] := by
        simp [List.takeWhile, Nat.not_le.mpr h]
      rw [hTW]
      simp [processLoop, h]
    · have hle : e ≤ 320 := Nat.not_lt.mp h
      have hTW : ((e, m) :: rest).takeWhile (fun p => decide (p.1 ≤ 320)) =
          (e, m) :: rest.takeWhile (fun p => decide (p.1 ≤ 320)) := by
        simp [List.takeWhile, hle]
      rw [hTW]
      have hpl : processLoop st now ((e, m) :: rest) =
          ((processLoop (processMessage st now m) now rest).1,
            m :: (processLoop (processMessage st now m) now rest).2) := by
        simp [processLoop, h]
      rw [hpl]
      obtain ⟨ih1, ih2⟩ := ih (processMessage st now m)
      constructor
      · simp [ih1]
      · simp [ih2]

/-- Claim C9 counterexample: a single fetched thread (within the 20-thread
fetch bound) holding 21 messages has all 21 processed in one run, so the
per-run cap of the code (THREAD_PROCESSING_LIMIT = 20) bounds threads, not
messages: there is no per-run message-count cap. -/
theorem C9_cex :
    ((runOnce [] [bigThread] (fun _ => 0) 0).2).length = bigThread.msgs.length ∧
    THREAD_PROCESSING_LIMIT < bigThread.msgs.length := by decide

/-- Claim C9 (amended): the loop checks the wall-clock budget before each
message and stops at the first check past 320 seconds: the processed messages
are exactly the maximal prefix of the queue whose checks passed, and the final
state is the fold of complete per-message writes over that prefix (cancellation
is never applied mid-message); the fetch stage caps fetched threads at
THREAD_PROCESSING_LIMIT, which is not a message-count cap. -/
theorem C9_budget_and_cap (st : RunState) (now : Nat) (l : List (Nat × ExtractedMsg))
    (ids : List String) (threads : List GmailThread) :
    (processLoop st now l).2 =
      (l.takeWhile (fun p => decide (p.1 ≤ 320))).map Prod.snd ∧
    (processLoop st now l).1 =
      ((l.takeWhile (fun p => decide (p.1 ≤ 320))).map Prod.snd).foldl
        (fun s m => processMessage s now m) st ∧
    fetchMessages ids threads = fetchMessages ids (threads.take THREAD_PROCESSING_LIMIT) := by
  refine ⟨(processLoop_spec now l st).1, (processLoop_spec now l st).2, ?_⟩
  unfold fetchMessages
  rw [List.take_take]
  simp

theorem mem_insertByDate (a m : ExtractedMsg) (l : List ExtractedMsg) :
    a ∈ insertByDate m l ↔ a = m ∨ a ∈ l := by
  induction l with
  | nil => simp [insertByDate]
  | cons x xs ih =>
    unfold insertByDate
    by_cases h : m.emailDate ≤ x.emailDate
    · rw [if_pos h]
      simp
    · rw [if_neg h]
      simp [ih]
      tauto

theorem mem_sortByDate (a : ExtractedMsg) (l : List ExtractedMsg) :
    a ∈ sortByDate l ↔ a ∈ l := by
  induction l with
  | nil => simp [sortByDate]
  | cons x xs ih =>
    unfold sortByDate
    rw [mem_insertByDate]
    simp [ih]

theorem mem_fetchMessages (m : ExtractedMsg) (ids : List String)
    (threads : List GmailThread) (h : m ∈ fetchMessages ids threads) :
    ids.contains m.msgId = false := by
  unfold fetchMessages at h
  have := List.of_mem_filter h
  simpa using this

/-- Claim C3 counterexample: message msgA1 is processed (folded into the
table) by run 1, then msgA2 of the same record overwrites the email-id column
of the row, and run 2 — rescanning the same thread — processes msgA1 again. -/
theorem C3_cex :
    exRun1.2 = [exMsgA1, exMsgA2] ∧
    exRun2.2 = [exMsgA1] := by decide

/-- Claim C3 (amended): a message id present in the email-id column of the
table at run start (the reconstructed idempotence set) is never processed in
that run; but because each row keeps only its most recent email id, this
protection does not extend to ids that a later email has overwritten. -/
theorem C3_idempotence (table : List Row) (threads : List GmailThread)
    (clock : Nat → Nat) (now : Nat) (mid : String)
    (h : mid ∈ (preload table).2) :
    ∀ m ∈ (runOnce table threads clock now).2, m.msgId ≠ mid := by
  intro m hm
  have hproc : (runOnce table threads clock now).2 =
      (((sortByDate (fetchMessages (preload table).2 threads)).enum.map
          (fun p => (clock p.1, p.2))).takeWhile (fun p => decide (p.1 ≤ 320))).map
        Prod.snd := by
    unfold runOnce
    exact (processLoop_spec now _ _).1
  rw [hproc] at hm
  have hm2 : m ∈ ((sortByDate (fetchMessages (preload table).2 threads)).enum.map
      (fun p => (clock p.1, p.2))).map Prod.snd := by
    apply List.Sublist.mem hm
    exact List.Sublist.map Prod.snd (List.takeWhile_sublist _)
  rw [List.map_map] at hm2
  have hsnd : (Prod.snd ∘ fun p : Nat × ExtractedMsg => (clock p.1, p.2)) =
      (fun p : Nat × ExtractedMsg => p.2) := rfl
  rw [hsnd] at hm2
  have hm3 : m ∈ sortByDate (fetchMessages (preload table).2 threads) := by
    have := List.enum_map_snd (sortByDate (fetchMessages (preload table).2 threads))
    simpa [this] using hm2
  rw [mem_sortByDate] at hm3
  have hc := mem_fetchMessages m (preload table).2 threads hm3
  intro heq
  rw [heq] at hc
  have : mid ∈ (preload table).2 := h
  rw [← List.elem_iff] at this
  rw [List.contains] at hc
  rw [this] at hc
  simp at hc

theorem C3_idempotence_witness :
    "msgA2" ∈ (preload exRun1.1.table).2 ∧
    ∀ m ∈ (runOnce exRun1.1.table [exThreadA] (fun _ => 0) 9).2, m.msgId ≠ "msgA2" :=
  ⟨by decide, C3_idempotence exRun1.1.table [exThreadA] (fun _ => 0) 9 "msgA2" (by decide)⟩

theorem foldl_latest_mem (f : CacheEntry → CacheEntry → CacheEntry)
    (hf : ∀ a b, f a b = a ∨ f a b = b) :
    ∀ (xs : List CacheEntry) (a : CacheEntry), xs.foldl f a = a ∨ xs.foldl f a ∈ xs := by
  intro xs
  induction xs with
  | nil => intro a; left; rfl
  | cons x xs ih =>
    intro a
    rcases ih (f a x) with h | h
    · rcases hf a x with hfx | hfx
      · left; rw [List.foldl_cons, h, hfx]
      · right; rw [List.foldl_cons, h, hfx]; exact List.mem_cons_self x xs
    · right
      rw [List.foldl_cons]
      exact List.mem_cons_of_mem x h

theorem reduceLatest_mem (l : List CacheEntry) (e : CacheEntry)
    (h : reduceLatest l = some e) : e ∈ l := by
  cases l with
  | nil => simp [reduceLatest] at h
  | cons x xs =>
    unfold reduceLatest at h
    have he : xs.foldl (fun latest cur => if cur.row > latest.row then cur else latest) x = e := by
      injection h
    rcases foldl_latest_mem (fun latest cur => if cur.row > latest.row then cur else latest)
        (fun a b => by by_cases hb : b.row > a.row <;> simp [hb]) xs x with h2 | h2
    · rw [he] at h2
      rw [h2]
      exact List.mem_cons_self x xs
    · rw [he] at h2
      exact List.mem_cons_of_mem x h2

theorem cacheGet_mem (c : Cache) (k : String) (e : CacheEntry) (h : e ∈ cacheGet c k) :
    ∃ p ∈ c, e ∈ p.2 := by
  unfold cacheGet cacheFind at h
  cases hf : c.find? (fun p => p.1 == k) with
  | none => rw [hf] at h; simp at h
  | some p =>
    rw [hf] at h
    simp at h
    exact ⟨p, List.mem_of_find?_eq_some hf, h⟩

theorem findExistingRow_mem (c : Cache) (cn t : String) (e : CacheEntry)
    (h : findExistingRow c cn t = some e) : ∃ p ∈ c, e ∈ p.2 := by
  unfold findExistingRow at h
  by_cases hg : cn ≠ MANUAL_REVIEW_NEEDED ∧ cacheHas c (jsLower cn) = true
  · rw [if_pos hg] at h
    dsimp only [] at h
    by_cases ht : t ≠ MANUAL_REVIEW_NEEDED
    · rw [if_pos ht] at h
      cases hfind : (cacheGet c (jsLower cn)).find?
          (fun e => e.title != "" && jsLower e.title == jsLower t) with
      | some e2 =>
        rw [hfind] at h
        have : e2 = e := by injection h
        subst this
        exact cacheGet_mem c (jsLower cn) e2 (List.mem_of_find?_eq_some hfind)
      | none =>
        rw [hfind] at h
        exact cacheGet_mem c (jsLower cn) e (reduceLatest_mem _ e h)
    · rw [if_neg ht] at h
      exact cacheGet_mem c (jsLower cn) e (reduceLatest_mem _ e h)
  · rw [if_neg hg] at h
    exact absurd h (by simp)

theorem cacheFind_map_fst (c : Cache) (k : String)
    (g : (String × List CacheEntry) → (String × List CacheEntry))
    (hg : ∀ p, (g p).1 = p.1) :
    cacheFind (c.map g) k = ((c.find? (fun p => p.1 == k)).map g).map (fun p => p.2) := by
  unfold cacheFind
  rw [List.find?_map]
  have : ((fun p : String × List CacheEntry => p.1 == k) ∘ g) =
      (fun p : String × List CacheEntry => p.1 == k) := by
    funext p
    simp [Function.comp, hg p]
  rw [this]

theorem cacheGet_push_self_ne_nil (c : Cache) (k : String) (e : CacheEntry) :
    cacheGet (cachePush c k e) k ≠ [] := by
  unfold cachePush
  by_cases h : cacheHas c k = true
  · rw [if_pos h]
    unfold cacheHas cacheFind at h
    cases hf : c.find? (fun p => p.1 == k) with
    | none => rw [hf] at h; simp at h
    | some p =>
      have hk : (p.1 == k) = true := (List.find?_eq_some.mp hf).1
      unfold cacheGet
      rw [cacheFind_map_fst c k _ (fun p => by by_cases hp : (p.1 == k) = true <;> simp [hp])]
      rw [hf]
      simp only [Option.map_some, Option.map_map, Option.getD_some]
      have hk2 : p.1 = k := by simpa using hk
      simp [hk2]
  · rw [if_neg h]
    unfold cacheGet cacheFind
    unfold cacheHas cacheFind at h
    cases hf : c.find? (fun p => p.1 == k) with
    | some p => rw [hf] at h; simp at h
    | none =>
      rw [List.find?_append, hf]
      simp

theorem cacheGet_update_ne_nil (c : Cache) (k k2 : String) (rn : Nat)
    (f : CacheEntry → CacheEntry) (h : cacheGet c k ≠ []) :
    cacheGet (cacheUpdateRowEntries c k2 rn f) k ≠ [] := by
  unfold cacheUpdateRowEntries
  unfold cacheGet at h ⊢
  rw [cacheFind_map_fst c k _ (fun p => by by_cases hp : (p.1 == k2) = true <;> simp [hp])]
  unfold cacheFind at h
  cases hf : c.find? (fun p => p.1 == k) with
  | none =>
    rw [hf] at h
    exact absurd rfl h
  | some p =>
    rw [hf] at h
    simp at h
    by_cases hp : p.1 = k2 <;> simp [hp, h]

theorem cacheGet_ne_nil_of_has (c : Cache) (k : String)
    (hne : cacheEntriesNonempty c) (h : cacheHas c k = true) :
    cacheGet c k ≠ [] := by
  unfold cacheHas at h
  unfold cacheGet
  cases hf : cacheFind c k with
  | none => rw [hf] at h; simp at h
  | some l =>
    simp only [hf, Option.getD_some]
    unfold cacheFind at hf
    cases hff : c.find? (fun p => p.1 == k) with
    | none => rw [hff] at hf; simp at hf
    | some p =>
      rw [hff] at hf
      simp at hf
      rw [← hf]
      exact hne p (List.mem_of_find?_eq_some hff)

theorem cacheHas_of_get_ne_nil (c : Cache) (k : String) (h : cacheGet c k ≠ []) :
    cacheHas c k = true := by
  unfold cacheGet at h
  unfold cacheHas
  cases hf : cacheFind c k with
  | none => rw [hf] at h; simp at h
  | some l => simp

theorem findExistingRow_isSome (c : Cache) (cn t : String)
    (hcn : cn ≠ MANUAL_REVIEW_NEEDED) (h : cacheGet c (jsLower cn) ≠ []) :
    (findExistingRow c cn t).isSome = true := by
  unfold findExistingRow
  rw [if_pos ⟨hcn, cacheHas_of_get_ne_nil c (jsLower cn) h⟩]
  dsimp only []
  cases hbt : (if t ≠ MANUAL_REVIEW_NEEDED then
      (cacheGet c (jsLower cn)).find? (fun e => e.title != "" && jsLower e.title == jsLower t)
    else none) with
  | some e => simp
  | none =>
    cases hl : cacheGet c (jsLower cn) with
    | nil => exact absurd hl h
    | cons x xs => simp [reduceLatest]

theorem findExistingRow_some_guard (c : Cache) (cn t : String) (e : CacheEntry)
    (h : findExistingRow c cn t = some e) :
    cn ≠ MANUAL_REVIEW_NEEDED ∧ cacheHas c (jsLower cn) = true := by
  unfold findExistingRow at h
  by_cases hg : cn ≠ MANUAL_REVIEW_NEEDED ∧ cacheHas c (jsLower cn) = true
  · exact hg
  · rw [if_neg hg] at h
    exact absurd h (by simp)

theorem processMessage_update_length (st : RunState) (now : Nat) (m : ExtractedMsg)
    (h : (findExistingRow st.cache m.company m.jobTitle).isSome = true) :
    (processMessage st now m).table.length = st.table.length := by
  simp only [processMessage]
  cases hf : findExistingRow st.cache m.company m.jobTitle with
  | none => rw [hf] at h; simp at h
  | some e =>
    dsimp only []
    cases hg : st.table.get? (e.row - 2) with
    | none => rfl
    | some r => simp

theorem processMessage_company_key (st : RunState) (now : Nat) (m : ExtractedMsg)
    (hm : m.company ≠ MANUAL_REVIEW_NEEDED) (hne : cacheEntriesNonempty st.cache) :
    cacheGet (processMessage st now m).cache (jsLower m.company) ≠ [] := by
  simp only [processMessage]
  cases hf : findExistingRow st.cache m.company m.jobTitle with
  | none =>
    dsimp only []
    show cacheGet (cachePush st.cache
      (if (createRow now m).company ≠ MANUAL_REVIEW_NEEDED then jsLower (createRow now m).company
        else companyCacheKey m.company m.msgId) _) (jsLower m.company) ≠ []
    rw [show (createRow now m).company = m.company from rfl, if_pos hm]
    exact cacheGet_push_self_ne_nil _ _ _
  | some e =>
    have hguard := findExistingRow_some_guard st.cache m.company m.jobTitle e hf
    have hbase : cacheGet st.cache (jsLower m.company) ≠ [] :=
      cacheGet_ne_nil_of_has _ _ hne hguard.2
    dsimp only []
    cases hg : st.table.get? (e.row - 2) with
    | none => exact hbase
    | some r => exact cacheGet_update_ne_nil _ _ _ _ _ hbase

/-- Claim C6: each reconciled message either appends exactly one new row or
mutates exactly one existing row (never both, never zero, given a consistent
cache); and because the company index is updated immediately after each write,
a second message of the same (company, title) identity in the same run takes
the update path and never creates a duplicate row. -/
theorem C6_no_duplicate_rows (st : RunState) (n1 n2 : Nat) (m m2 : ExtractedMsg)
    (hval : cacheRowsValid st.cache st.table) (hne : cacheEntriesNonempty st.cache) :
    ((∃ r, (processMessage st n1 m).table = st.table ++ [r]) ∨
      (∃ i r, i < st.table.length ∧ (processMessage st n1 m).table = st.table.set i r)) ∧
    (m.company ≠ MANUAL_REVIEW_NEEDED → m2.company ≠ MANUAL_REVIEW_NEEDED →
      jsLower m2.company = jsLower m.company →
      (processMessage (processMessage st n1 m) n2 m2).table.length =
        (processMessage st n1 m).table.length) := by
  constructor
  · cases hf : findExistingRow st.cache m.company m.jobTitle with
    | none =>
      left
      refine ⟨createRow n1 m, ?_⟩
      simp only [processMessage]
      rw [hf]
    | some e =>
      obtain ⟨p, hp, hep⟩ := findExistingRow_mem _ _ _ _ hf
      obtain ⟨h2, hlt⟩ := hval p hp e hep
      right
      refine ⟨e.row - 2, updateRow e (st.table.get ⟨e.row - 2, hlt⟩) n1 m, hlt, ?_⟩
      simp only [processMessage]
      rw [hf]
      dsimp only []
      rw [List.get?_eq_get hlt]
  · intro hm hm2 hkey
    apply processMessage_update_length
    apply findExistingRow_isSome _ _ _ hm2
    rw [hkey]
    exact processMessage_company_key st n1 m hm hne

theorem C6_witness :
    cacheRowsValid exEmptyState.cache exEmptyState.table ∧
    cacheEntriesNonempty exEmptyState.cache ∧
    (((∃ r, (processMessage exEmptyState 1 exMsgA1).table = exEmptyState.table ++ [r]) ∨
        (∃ i r, i < exEmptyState.table.length ∧
          (processMessage exEmptyState 1 exMsgA1).table = exEmptyState.table.set i r)) ∧
      (exMsgA1.company ≠ MANUAL_REVIEW_NEEDED → exMsgA2.company ≠ MANUAL_REVIEW_NEEDED →
        jsLower exMsgA2.company = jsLower exMsgA1.company →
        (processMessage (processMessage exEmptyState 1 exMsgA1) 2 exMsgA2).table.length =
          (processMessage exEmptyState 1 exMsgA1).table.length)) :=
  ⟨by intro p hp; simp [exEmptyState] at hp,
    by intro p hp; simp [exEmptyState] at hp,
    C6_no_duplicate_rows exEmptyState 1 2 exMsgA1 exMsgA2
      (by intro p hp; simp [exEmptyState] at hp)
      (by intro p hp; simp [exEmptyState] at hp)⟩
